import Mathlib

/-!
# Startup resolution and FIPS enforcement of `crypto/internal/backend`

A shallow embedding of `src/crypto/internal/backend/openssl.go`: the package
initialiser `init`, the accessor `Enabled`, and the two execution guards
`Unreachable` and `UnreachableExceptTests`.

Modelling conventions.

* A Go `string` is an immutable byte sequence, so it is a `List UInt8`; `len`
  is `List.length`, `s[i:]` is `List.drop i`, `+` is `++` and `==` is equality
  of lists.  Literals of the source are the UTF-8 bytes of the same literal.
* A Go `error` is an `Option GoString`: `none` is `nil`, `some m` is an error
  whose `Error()` text is `m`.
* `panic(msg)` is an explicit result carrying the message.
* The package `github.com/golang-fips/openssl/v2` is not part of the
  repository.  Its five entry points used by `init` are the fields of
  `Provider`, over an arbitrary provider state `σ`.
* `hostFIPSModeEnabled()` and `runtime_arg0()` are declared outside the file;
  their results are parameters.
* Every call that `init` makes to the provider or to `hostFIPSModeEnabled` is
  appended to a trace, so that "calls exactly once" and "makes no call" are
  statements about the run.
-/

namespace Backend

/-- A Go string, as its bytes. -/
abbrev GoString := List UInt8

/-- The bytes of a string literal of the source. -/
def lit (s : String) : GoString := s.toUTF8.data.toList

/-- A Go `error` value: `none` is `nil`, `some m` has `Error() = m`. -/
abbrev GoError := Option GoString

/-- The process environment: the value of each variable that is set. -/
abbrev Environ := GoString → Option GoString

/-- Go `syscall.Getenv(key)`: the value and whether the variable is set; an unset
variable gives the empty string. -/
def Getenv (env : Environ) (key : GoString) : GoString × Bool :=
  match env key with
  | some v => (v, true)
  | none => ([], false)

/-- The entry points of the OpenSSL binding used by `init`, over a provider state `σ`.
`CheckVersion v` reports `(exists, fips)`; `Init` and `SetFIPS` return an error
value and the next provider state; `FIPS` and `VersionText` read the state. -/
structure Provider (σ : Type) where
  CheckVersion : GoString → Bool × Bool
  Init : GoString → σ → GoError × σ
  FIPS : σ → Bool
  SetFIPS : Bool → σ → GoError × σ
  VersionText : σ → GoString

/-- One call made by `init`, in the order of execution. -/
inductive Call where
  | CheckVersion (v : GoString)
  | Init (v : GoString)
  | FIPS
  | SetFIPS (b : Bool)
  | VersionText
  | hostFIPSModeEnabled
  deriving DecidableEq, Repr

/-- Source line 23: `var knownVersions = [...]string{...}`. -/
def knownVersions : List GoString :=
  [lit "3", lit "1.1", lit "11", lit "111", lit "1.0.2", lit "1.0.0", lit "10"]

/-- The variables of the version loop (lines 28-38) and the calls made so far. -/
structure Scan where
  version : GoString
  fallbackVersion : GoString
  trace : List Call
  deriving DecidableEq, Repr

/-- Lines 29-38: `for _, v := range known { ... }` with its `break`. -/
def scanVersions (check : GoString → Bool × Bool) :
    List GoString → GoString → GoString → Scan
  | [], version, fallbackVersion => ⟨version, fallbackVersion, []⟩
  | v :: rest, version, fallbackVersion =>
    let r := check v
    if r.1 && r.2 then
      ⟨v, fallbackVersion, [Call.CheckVersion v]⟩
    else
      let fb := if r.1 && fallbackVersion == [] then v else fallbackVersion
      let s := scanVersions check rest version fb
      ⟨s.version, s.fallbackVersion, Call.CheckVersion v :: s.trace⟩

/-- Lines 26-42: the value of `version` when `openssl.Init` is reached, and the
`CheckVersion` calls made on the way. -/
def resolveVersion (known : List GoString) (check : GoString → Bool × Bool)
    (env : Environ) : GoString × List Call :=
  let version := (Getenv env (lit "GO_OPENSSL_VERSION_OVERRIDE")).1
  if version == [] then
    let s := scanVersions check known version []
    let version :=
      if s.version == [] && s.fallbackVersion != [] then s.fallbackVersion else s.version
    (version, s.trace)
  else
    (version, [])

/-- Lines 49-55: the value of the local `fips`, and whether
`hostFIPSModeEnabled` was called to obtain it. -/
def fipsVariable (env : Environ) (host : Bool) : GoString × List Call :=
  let r := Getenv env (lit "GOLANG_FIPS")
  if r.2 then
    (r.1, [])
  else if host then
    (lit "1", [Call.hostFIPSModeEnabled])
  else
    ([], [Call.hostFIPSModeEnabled])

/-- The state `init` leaves behind: the package variable `enabled`, the state of
the provider, and the calls made. -/
structure World (σ : Type) where
  enabled : Bool
  prov : σ
  trace : List Call

/-- The result of running `init`: `panic = some msg` when it aborted with `msg`. -/
structure Outcome (σ : Type) where
  panic : Option GoString
  world : World σ

/-- Lines 56-70: `switch fips { case "0": ... case "1": ... }`, entered with
`enabled = false`, provider state `s` and the calls `tr` made so far. -/
def applyFIPS {σ : Type} (P : Provider σ) (fips : GoString) (s : σ) (tr : List Call) :
    Outcome σ :=
  if fips = lit "0" then
    if P.FIPS s then
      match P.SetFIPS false s with
      | (some err, s2) =>
        ⟨some (lit "opensslcrypto: can't disable FIPS mode for " ++ P.VersionText s2
            ++ lit ": " ++ err),
          ⟨false, s2, tr ++ [Call.FIPS, Call.SetFIPS false, Call.VersionText]⟩⟩
      | (none, s2) => ⟨none, ⟨false, s2, tr ++ [Call.FIPS, Call.SetFIPS false]⟩⟩
    else
      ⟨none, ⟨false, s, tr ++ [Call.FIPS]⟩⟩
  else if fips = lit "1" then
    if !P.FIPS s then
      match P.SetFIPS true s with
      | (some err, s2) =>
        ⟨some (lit "opensslcrypto: can't enable FIPS mode for " ++ P.VersionText s2
            ++ lit ": " ++ err),
          ⟨false, s2, tr ++ [Call.FIPS, Call.SetFIPS true, Call.VersionText]⟩⟩
      | (none, s2) => ⟨none, ⟨true, s2, tr ++ [Call.FIPS, Call.SetFIPS true]⟩⟩
    else
      ⟨none, ⟨true, s, tr ++ [Call.FIPS]⟩⟩
  else
    ⟨none, ⟨false, s, tr⟩⟩

/-- Lines 25-72: `func init()`, over the version list `known`, the provider `P`,
the environment, the result `host` of `hostFIPSModeEnabled()` and the initial
provider state.  The package variable `enabled` starts as `false`.
`sig.BoringCrypto()` on line 71 is a marker without effect. -/
def initWith {σ : Type} (known : List GoString) (P : Provider σ) (env : Environ)
    (host : Bool) (s0 : σ) : Outcome σ :=
  let rv := resolveVersion known P.CheckVersion env
  let version := rv.1
  match P.Init version s0 with
  | (some err, s1) =>
    ⟨some (lit "opensslcrypto: can't initialize OpenSSL " ++ version ++ lit ": " ++ err),
      ⟨false, s1, rv.2 ++ [Call.Init version]⟩⟩
  | (none, s1) =>
    let fv := fipsVariable env host
    applyFIPS P fv.1 s1 (rv.2 ++ [Call.Init version] ++ fv.2)

/-- Lines 25-72 with the package variable `knownVersions`. -/
def init {σ : Type} (P : Provider σ) (env : Environ) (host : Bool) (s0 : σ) : Outcome σ :=
  initWith knownVersions P env host s0

/-- What the guards read: the package variable `enabled` as `init` left it and the
result of `runtime_arg0()`. -/
structure Process where
  enabled : Bool
  arg0 : GoString
  deriving DecidableEq, Repr

/-- Lines 74-76: `func Enabled() bool`. -/
def Enabled (p : Process) : Bool := p.enabled

/-- The result of a guard: the lines written by `println` and either a normal
return or the panic message. -/
structure GuardResult where
  printed : List GoString
  panic : Option GoString
  deriving DecidableEq, Repr

/-- Lines 81-85: `func Unreachable()`. -/
def Unreachable (p : Process) : GuardResult :=
  if Enabled p then
    ⟨[], some (lit "opensslcrypto: invalid code execution")⟩
  else
    ⟨[], none⟩

/-- Lines 97-99: `func hasSuffix(s, t string) bool`. -/
def hasSuffix (s t : GoString) : Bool :=
  decide (s.length > t.length) && s.drop (s.length - t.length) == t

/-- Lines 103-110: `func UnreachableExceptTests()`. -/
def UnreachableExceptTests (p : Process) : GuardResult :=
  let name := p.arg0
  if Enabled p && !hasSuffix name (lit "_test") && !hasSuffix name (lit ".test") then
    ⟨[lit "opensslcrypto: unexpected code execution in" ++ lit " " ++ name ++ lit "\n"],
      some (lit "opensslcrypto: invalid code execution")⟩
  else
    ⟨[], none⟩

/-- The three directives of the `switch fips` statement (comment on lines 46-48). -/
inductive FIPSDirective where
  | ForceDisable
  | ForceEnable
  | NoOverride
  deriving DecidableEq, Repr

/-- Which arm of `switch fips` (lines 56-70) a value of `fips` selects. -/
def directiveOf (fips : GoString) : FIPSDirective :=
  if fips = lit "0" then FIPSDirective.ForceDisable
  else if fips = lit "1" then FIPSDirective.ForceEnable
  else FIPSDirective.NoOverride

/-- The arguments of the `openssl.Init` calls of a trace, in order. -/
def initArgs (tr : List Call) : List GoString :=
  tr.filterMap fun c => match c with
    | Call.Init v => some v
    | _ => none

/-- The arguments of the `openssl.SetFIPS` calls of a trace, in order. -/
def setFIPSArgs (tr : List Call) : List Bool :=
  tr.filterMap fun c => match c with
    | Call.SetFIPS b => some b
    | _ => none

/-- The arguments of the `openssl.CheckVersion` calls of a trace, in order. -/
def checkVersionArgs (tr : List Call) : List GoString :=
  tr.filterMap fun c => match c with
    | Call.CheckVersion v => some v
    | _ => none

/-- The process as the guards see it once `init` has run: the value `init` gave to
the package variable `enabled`, and the executable name. -/
def processOf {σ : Type} (o : Outcome σ) (arg0 : GoString) : Process :=
  ⟨o.world.enabled, arg0⟩

/-- An environment in which only the two variables read by `init` may be set. -/
def mkEnv (override golangFips : Option GoString) : Environ := fun key =>
  if key = lit "GO_OPENSSL_VERSION_OVERRIDE" then override
  else if key = lit "GOLANG_FIPS" then golangFips
  else none

/-- A sample provider whose state is its FIPS flag: `CheckVersion` is the given
probe, `Init` succeeds exactly when `initOk`, `SetFIPS b` succeeds and stores `b`
exactly when `setOk`, failing with `busy` otherwise. -/
def flagProvider (check : GoString → Bool × Bool) (initOk setOk : Bool) : Provider Bool where
  CheckVersion := check
  Init := fun _ s => if initOk then (none, s) else (some (lit "no such library"), s)
  FIPS := fun s => s
  SetFIPS := fun b s => if setOk then (none, b) else (some (lit "busy"), s)
  VersionText := fun _ => lit "OpenSSL 3.0.7"

/-- A sample probe: `3` exists without FIPS support, `1.1` and `111` exist with it,
nothing else exists. -/
def sampleProbe : GoString → Bool × Bool := fun v =>
  if v = lit "3" then (true, false)
  else if v = lit "1.1" then (true, true)
  else if v = lit "111" then (true, true)
  else (false, false)

/-- A sample probe without any FIPS-capable version: only `11` and `1.0.2` exist. -/
def fallbackProbe : GoString → Bool × Bool := fun v =>
  if v = lit "11" then (true, false)
  else if v = lit "1.0.2" then (true, false)
  else (false, false)

/-- The probe of a host on which no version exists. -/
def emptyProbe : GoString → Bool × Bool := fun _ => (false, false)

/-! ## Shared lemmas -/

theorem find?_of_first {α : Type} (p : α → Bool) :
    ∀ (l : List α) (i : Nat) (v : α), l[i]? = some v → p v = true →
      (∀ w ∈ l.take i, p w = false) → l.find? p = some v
  | [], i, v, h, _, _ => by simp at h
  | a :: t, 0, v, h, hp, _ => by
    simp at h
    subst h
    simp [List.find?_cons, hp]
  | a :: t, k + 1, v, h, hp, hw => by
    have ha : p a = false := hw a (by simp)
    have ht : ∀ w ∈ t.take k, p w = false := fun w hm => hw w (by simp [hm])
    have hk : t[k]? = some v := by simpa using h
    simp [List.find?_cons, ha, find?_of_first p t k v hk hp ht]

theorem knownVersions_nonempty : ∀ v ∈ knownVersions, v ≠ [] := by decide

theorem scanVersions_version (check : GoString → Bool × Bool) :
    ∀ (l : List GoString) (fb : GoString),
      (scanVersions check l [] fb).version
        = ((l.find? fun v => (check v).1 && (check v).2).getD [])
  | [], fb => by simp [scanVersions]
  | v :: rest, fb => by
    by_cases h : ((check v).1 && (check v).2) = true
    · simp [scanVersions, List.find?_cons, h]
    · have h2 : ((check v).1 && (check v).2) = false := by simpa using h
      simp only [scanVersions, h2, List.find?_cons]
      simpa using scanVersions_version check rest _

theorem scanVersions_fallback (check : GoString → Bool × Bool) :
    ∀ (l : List GoString) (fb : GoString), (∀ v ∈ l, v ≠ []) →
      (l.find? fun v => (check v).1 && (check v).2) = none →
      (scanVersions check l [] fb).fallbackVersion
        = if fb = [] then ((l.find? fun v => (check v).1).getD []) else fb
  | [], fb, _, _ => by
    by_cases hfb : fb = [] <;> simp [scanVersions, hfb]
  | v :: rest, fb, hne, hnone => by
    have hv : v ≠ [] := hne v (by simp)
    have hrest : ∀ w ∈ rest, w ≠ [] := fun w hw => hne w (by simp [hw])
    have h2 : ((check v).1 && (check v).2) = false := by
      by_contra hc
      simp [List.find?_cons, hc] at hnone
    have hnone2 : (rest.find? fun v => (check v).1 && (check v).2) = none := by
      simpa [List.find?_cons, h2] using hnone
    have ih := scanVersions_fallback check rest
    simp only [scanVersions, h2]
    by_cases he : (check v).1 = true
    · by_cases hfb : fb = []
      · simp [he, hfb, ih v hrest hnone2, hv, List.find?_cons]
      · simp [he, hfb, ih fb hrest hnone2, List.find?_cons]
    · have he2 : (check v).1 = false := by simpa using he
      simp [he2, ih fb hrest hnone2, List.find?_cons]

theorem scanVersions_trace_checks (check : GoString → Bool × Bool) :
    ∀ (l : List GoString) (ver fb : GoString),
      ∀ c ∈ (scanVersions check l ver fb).trace, ∃ v, c = Call.CheckVersion v
  | [], ver, fb => by simp [scanVersions]
  | v :: rest, ver, fb => by
    intro c hc
    by_cases h : ((check v).1 && (check v).2) = true
    · simp [scanVersions, h] at hc
      exact ⟨v, hc⟩
    · have h2 : ((check v).1 && (check v).2) = false := by simpa using h
      simp only [scanVersions, h2] at hc
      simp at hc
      rcases hc with hc | hc
      · exact ⟨v, hc⟩
      · exact scanVersions_trace_checks check rest _ _ c hc

theorem Getenv_none (env : Environ) (key : GoString) (h : env key = none) :
    Getenv env key = ([], false) := by
  simp [Getenv, h]

theorem Getenv_some (env : Environ) (key v : GoString) (h : env key = some v) :
    Getenv env key = (v, true) := by
  simp [Getenv, h]

theorem resolveVersion_trace_checks (known : List GoString) (check : GoString → Bool × Bool)
    (env : Environ) : ∀ c ∈ (resolveVersion known check env).2, ∃ v, c = Call.CheckVersion v := by
  intro c hc
  unfold resolveVersion at hc
  by_cases h : ((Getenv env (lit "GO_OPENSSL_VERSION_OVERRIDE")).1 == []) = true
  · simp only [h, if_true] at hc
    exact scanVersions_trace_checks check known _ _ c hc
  · simp [h] at hc

theorem initArgs_of_checks (tr : List Call) (h : ∀ c ∈ tr, ∃ v, c = Call.CheckVersion v) :
    initArgs tr = [] := by
  induction tr with
  | nil => rfl
  | cons c t ih =>
    obtain ⟨v, hv⟩ := h c (by simp)
    subst hv
    have := ih (fun d hd => h d (by simp [hd]))
    simpa [initArgs, List.filterMap_cons] using this

theorem setFIPSArgs_of_checks (tr : List Call) (h : ∀ c ∈ tr, ∃ v, c = Call.CheckVersion v) :
    setFIPSArgs tr = [] := by
  induction tr with
  | nil => rfl
  | cons c t ih =>
    obtain ⟨v, hv⟩ := h c (by simp)
    subst hv
    have := ih (fun d hd => h d (by simp [hd]))
    simpa [setFIPSArgs, List.filterMap_cons] using this

theorem initArgs_append (a b : List Call) : initArgs (a ++ b) = initArgs a ++ initArgs b := by
  simp [initArgs, List.filterMap_append]

theorem setFIPSArgs_append (a b : List Call) :
    setFIPSArgs (a ++ b) = setFIPSArgs a ++ setFIPSArgs b := by
  simp [setFIPSArgs, List.filterMap_append]

theorem checkVersionArgs_append (a b : List Call) :
    checkVersionArgs (a ++ b) = checkVersionArgs a ++ checkVersionArgs b := by
  simp [checkVersionArgs, List.filterMap_append]

theorem fipsVariable_initArgs (env : Environ) (host : Bool) :
    initArgs (fipsVariable env host).2 = [] := by
  unfold fipsVariable
  simp only []
  split_ifs <;> simp [initArgs]

theorem fipsVariable_setFIPSArgs (env : Environ) (host : Bool) :
    setFIPSArgs (fipsVariable env host).2 = [] := by
  unfold fipsVariable
  simp only []
  split_ifs <;> simp [setFIPSArgs]

theorem fipsVariable_checkVersionArgs (env : Environ) (host : Bool) :
    checkVersionArgs (fipsVariable env host).2 = [] := by
  unfold fipsVariable
  simp only []
  split_ifs <;> simp [checkVersionArgs]

theorem applyFIPS_initArgs {σ : Type} (P : Provider σ) (fips : GoString) (s : σ)
    (tr : List Call) : initArgs (applyFIPS P fips s tr).world.trace = initArgs tr := by
  unfold applyFIPS
  split_ifs <;> (try split) <;> simp [initArgs_append] <;> simp [initArgs]

theorem applyFIPS_checkVersionArgs {σ : Type} (P : Provider σ) (fips : GoString) (s : σ)
    (tr : List Call) :
    checkVersionArgs (applyFIPS P fips s tr).world.trace = checkVersionArgs tr := by
  unfold applyFIPS
  split_ifs <;> (try split) <;> simp [checkVersionArgs_append] <;> simp [checkVersionArgs]

theorem initWith_initArgs {σ : Type} (known : List GoString) (P : Provider σ) (env : Environ)
    (host : Bool) (s0 : σ) :
    initArgs (initWith known P env host s0).world.trace
      = [(resolveVersion known P.CheckVersion env).1] := by
  have h1 := initArgs_of_checks _ (resolveVersion_trace_checks known P.CheckVersion env)
  have h2 := fipsVariable_initArgs env host
  unfold initWith
  simp only []
  split
  · simp [initArgs_append, h1]
    simp [initArgs]
  · rw [applyFIPS_initArgs, initArgs_append, initArgs_append, h1, h2]
    simp [initArgs]

theorem initWith_checkVersionArgs {σ : Type} (known : List GoString) (P : Provider σ)
    (env : Environ) (host : Bool) (s0 : σ) :
    checkVersionArgs (initWith known P env host s0).world.trace
      = checkVersionArgs (resolveVersion known P.CheckVersion env).2 := by
  have h2 := fipsVariable_checkVersionArgs env host
  unfold initWith
  simp only []
  split
  · simp [checkVersionArgs_append]
    simp [checkVersionArgs]
  · rw [applyFIPS_checkVersionArgs, checkVersionArgs_append, checkVersionArgs_append, h2]
    simp [checkVersionArgs]

theorem resolveVersion_of_empty_override (known : List GoString)
    (check : GoString → Bool × Bool) (env : Environ)
    (h : env (lit "GO_OPENSSL_VERSION_OVERRIDE") = none
      ∨ env (lit "GO_OPENSSL_VERSION_OVERRIDE") = some []) :
    (resolveVersion known check env).1
      = if (scanVersions check known [] []).version = []
            ∧ (scanVersions check known [] []).fallbackVersion ≠ []
        then (scanVersions check known [] []).fallbackVersion
        else (scanVersions check known [] []).version := by
  have hg : (Getenv env (lit "GO_OPENSSL_VERSION_OVERRIDE")).1 = [] := by
    rcases h with h | h
    · rw [Getenv_none env _ h]
    · rw [Getenv_some env _ _ h]
  unfold resolveVersion
  simp only [hg]
  simp

theorem resolveVersion_of_override (known : List GoString) (check : GoString → Bool × Bool)
    (env : Environ) (s : GoString) (hs : s ≠ [])
    (h : env (lit "GO_OPENSSL_VERSION_OVERRIDE") = some s) :
    resolveVersion known check env = (s, []) := by
  unfold resolveVersion
  rw [Getenv_some env _ _ h]
  simp [hs]

theorem scanVersions_trace_of_none (check : GoString → Bool × Bool) :
    ∀ (l : List GoString) (ver fb : GoString),
      (∀ v ∈ l, ((check v).1 && (check v).2) = false) →
      (scanVersions check l ver fb).trace = l.map Call.CheckVersion
  | [], ver, fb, _ => by simp [scanVersions]
  | v :: rest, ver, fb, h => by
    have h2 : ((check v).1 && (check v).2) = false := h v (by simp)
    simp only [scanVersions, h2]
    simp [scanVersions_trace_of_none check rest _ _ (fun w hw => h w (by simp [hw]))]

theorem initWith_of_Init_ok {σ : Type} (known : List GoString) (P : Provider σ)
    (env : Environ) (host : Bool) (s0 s1 : σ)
    (h : P.Init (resolveVersion known P.CheckVersion env).1 s0 = (none, s1)) :
    initWith known P env host s0
      = applyFIPS P (fipsVariable env host).1 s1
          ((resolveVersion known P.CheckVersion env).2
            ++ [Call.Init (resolveVersion known P.CheckVersion env).1]
            ++ (fipsVariable env host).2) := by
  unfold initWith
  simp only [h]

theorem initWith_of_Init_err {σ : Type} (known : List GoString) (P : Provider σ)
    (env : Environ) (host : Bool) (s0 s1 : σ) (err : GoString)
    (h : P.Init (resolveVersion known P.CheckVersion env).1 s0 = (some err, s1)) :
    initWith known P env host s0
      = ⟨some (lit "opensslcrypto: can't initialize OpenSSL "
            ++ (resolveVersion known P.CheckVersion env).1 ++ lit ": " ++ err),
          ⟨false, s1, (resolveVersion known P.CheckVersion env).2
            ++ [Call.Init (resolveVersion known P.CheckVersion env).1]⟩⟩ := by
  unfold initWith
  simp only [h]

theorem lit_zero_ne_one : lit "0" ≠ lit "1" := by decide

theorem setFIPSArgs_before_switch {σ : Type} (known : List GoString) (P : Provider σ)
    (env : Environ) (host : Bool) :
    setFIPSArgs ((resolveVersion known P.CheckVersion env).2
      ++ [Call.Init (resolveVersion known P.CheckVersion env).1]
      ++ (fipsVariable env host).2) = [] := by
  rw [setFIPSArgs_append, setFIPSArgs_append, fipsVariable_setFIPSArgs,
    setFIPSArgs_of_checks _ (resolveVersion_trace_checks known P.CheckVersion env)]
  simp [setFIPSArgs]

/-- The `case "0"` arm when the provider reports FIPS mode on. -/
theorem applyFIPS_zero_on {σ : Type} (P : Provider σ) (s : σ) (tr : List Call)
    (hf : P.FIPS s = true) :
    setFIPSArgs (applyFIPS P (lit "0") s tr).world.trace = setFIPSArgs tr ++ [false]
    ∧ ((applyFIPS P (lit "0") s tr).panic ≠ none ↔ (P.SetFIPS false s).1 ≠ none)
    ∧ (applyFIPS P (lit "0") s tr).world.enabled = false := by
  rcases hS : P.SetFIPS false s with ⟨e, s2⟩
  cases e <;> simp [applyFIPS, hf, hS, setFIPSArgs_append] <;> simp [setFIPSArgs]

/-- The `case "0"` arm when the provider reports FIPS mode off. -/
theorem applyFIPS_zero_off {σ : Type} (P : Provider σ) (s : σ) (tr : List Call)
    (hf : P.FIPS s = false) :
    applyFIPS P (lit "0") s tr = ⟨none, ⟨false, s, tr ++ [Call.FIPS]⟩⟩ := by
  unfold applyFIPS
  simp [hf]

/-- The `case "1"` arm when the provider reports FIPS mode off. -/
theorem applyFIPS_one_off {σ : Type} (P : Provider σ) (s : σ) (tr : List Call)
    (hf : P.FIPS s = false) :
    setFIPSArgs (applyFIPS P (lit "1") s tr).world.trace = setFIPSArgs tr ++ [true]
    ∧ ((applyFIPS P (lit "1") s tr).panic ≠ none ↔ (P.SetFIPS true s).1 ≠ none)
    ∧ ((applyFIPS P (lit "1") s tr).panic = none →
        (applyFIPS P (lit "1") s tr).world.enabled = true
        ∧ (applyFIPS P (lit "1") s tr).world.prov = (P.SetFIPS true s).2
        ∧ (P.SetFIPS true s).1 = none) := by
  rcases hS : P.SetFIPS true s with ⟨e, s2⟩
  cases e <;> simp [applyFIPS, hf, hS, lit_zero_ne_one.symm, setFIPSArgs_append] <;>
    simp [setFIPSArgs]

/-- The `case "1"` arm when the provider reports FIPS mode on. -/
theorem applyFIPS_one_on {σ : Type} (P : Provider σ) (s : σ) (tr : List Call)
    (hf : P.FIPS s = true) :
    applyFIPS P (lit "1") s tr = ⟨none, ⟨true, s, tr ++ [Call.FIPS]⟩⟩ := by
  unfold applyFIPS
  simp [hf, lit_zero_ne_one.symm]

/-- No arm of the switch is taken for any other value of `fips`. -/
theorem applyFIPS_other {σ : Type} (P : Provider σ) (fips : GoString) (s : σ)
    (tr : List Call) (h0 : fips ≠ lit "0") (h1 : fips ≠ lit "1") :
    applyFIPS P fips s tr = ⟨none, ⟨false, s, tr⟩⟩ := by
  unfold applyFIPS
  simp [h0, h1]

theorem fipsVariable_of_set (env : Environ) (host : Bool) (v : GoString)
    (h : env (lit "GOLANG_FIPS") = some v) : fipsVariable env host = (v, []) := by
  unfold fipsVariable
  rw [Getenv_some env _ _ h]
  simp

theorem fipsVariable_of_unset (env : Environ) (host : Bool)
    (h : env (lit "GOLANG_FIPS") = none) :
    fipsVariable env host
      = (if host then lit "1" else [], [Call.hostFIPSModeEnabled]) := by
  unfold fipsVariable
  rw [Getenv_none env _ h]
  cases host <;> simp

theorem nil_ne_lit_zero : ([] : GoString) ≠ lit "0" := by decide

theorem nil_ne_lit_one : ([] : GoString) ≠ lit "1" := by decide

/-- The value of `fips` is `1` exactly for `GOLANG_FIPS=1` and for an unset variable on a
host that mandates FIPS. -/
theorem fipsVariable_eq_one_iff (env : Environ) (host : Bool) :
    (fipsVariable env host).1 = lit "1"
      ↔ env (lit "GOLANG_FIPS") = some (lit "1")
        ∨ (env (lit "GOLANG_FIPS") = none ∧ host = true) := by
  cases h : env (lit "GOLANG_FIPS") with
  | none =>
    rw [fipsVariable_of_unset env host h]
    cases host <;> simp [nil_ne_lit_one, nil_ne_lit_one.symm]
  | some v =>
    rw [fipsVariable_of_set env host v h]
    simp

/-- What the switch leaves behind does not depend on the calls made before it. -/
theorem applyFIPS_indep {σ : Type} (P : Provider σ) (fips : GoString) (s : σ)
    (tr tr' : List Call) :
    (applyFIPS P fips s tr).panic = (applyFIPS P fips s tr').panic
    ∧ (applyFIPS P fips s tr).world.enabled = (applyFIPS P fips s tr').world.enabled
    ∧ (applyFIPS P fips s tr).world.prov = (applyFIPS P fips s tr').world.prov := by
  rcases hF : P.SetFIPS false s with ⟨e, s2⟩
  rcases hT : P.SetFIPS true s with ⟨e', s3⟩
  unfold applyFIPS
  cases e <;> cases e' <;> cases hf : P.FIPS s <;> split_ifs <;> simp [hF, hT]

/-- A run of the switch that does not panic sets `enabled` exactly in the `case "1"` arm. -/
theorem applyFIPS_enabled_iff {σ : Type} (P : Provider σ) (fips : GoString) (s : σ)
    (tr : List Call) (hdone : (applyFIPS P fips s tr).panic = none) :
    (applyFIPS P fips s tr).world.enabled = true ↔ fips = lit "1" := by
  by_cases h0 : fips = lit "0"
  · subst h0
    cases hf : P.FIPS s
    · rw [applyFIPS_zero_off P s tr hf]
      simp [lit_zero_ne_one]
    · have := (applyFIPS_zero_on P s tr hf).2.2
      simp [this, lit_zero_ne_one]
  · by_cases h1 : fips = lit "1"
    · subst h1
      cases hf : P.FIPS s
      · have := ((applyFIPS_one_off P s tr hf).2.2 hdone).1
        simp [this]
      · rw [applyFIPS_one_on P s tr hf]
        simp
    · rw [applyFIPS_other P fips s tr h0 h1]
      simp [h1]

/-- With a provider whose successful `SetFIPS(b)` makes `FIPS()` return `b`, the
`case "1"` arm either panics or leaves `enabled` set and the provider in FIPS mode. -/
theorem applyFIPS_one_sound {σ : Type} (P : Provider σ) (s : σ) (tr : List Call)
    (hset : ∀ (b : Bool) (s s' : σ), P.SetFIPS b s = (none, s') → P.FIPS s' = b) :
    (applyFIPS P (lit "1") s tr).panic ≠ none
    ∨ ((applyFIPS P (lit "1") s tr).world.enabled = true
      ∧ P.FIPS (applyFIPS P (lit "1") s tr).world.prov = true) := by
  cases hf : P.FIPS s
  · by_cases hp : (applyFIPS P (lit "1") s tr).panic = none
    · right
      obtain ⟨he, hprov, herr⟩ := (applyFIPS_one_off P s tr hf).2.2 hp
      refine ⟨he, ?_⟩
      rw [hprov]
      exact hset true s (P.SetFIPS true s).2 (Prod.ext herr rfl)
    · left
      exact hp
  · right
    rw [applyFIPS_one_on P s tr hf]
    exact ⟨rfl, hf⟩

theorem applyFIPS_trace_mem {σ : Type} (P : Provider σ) (fips : GoString) (s : σ)
    (tr : List Call) (c : Call) (hc : c ∈ (applyFIPS P fips s tr).world.trace) :
    c ∈ tr ∨ c = Call.FIPS ∨ (∃ b, c = Call.SetFIPS b) ∨ c = Call.VersionText := by
  rcases hF : P.SetFIPS false s with ⟨e, s2⟩
  rcases hT : P.SetFIPS true s with ⟨e', s3⟩
  unfold applyFIPS at hc
  cases e <;> cases e' <;> cases hf : P.FIPS s <;> split_ifs at hc <;>
    simp [hF, hT, hf] at hc <;> aesop

theorem resolveVersion_congr (known : List GoString) (check : GoString → Bool × Bool)
    (env env' : Environ)
    (h : env (lit "GO_OPENSSL_VERSION_OVERRIDE") = env' (lit "GO_OPENSSL_VERSION_OVERRIDE")) :
    resolveVersion known check env = resolveVersion known check env' := by
  unfold resolveVersion Getenv
  rw [h]

theorem directiveOf_eq_enable_iff (fips : GoString) :
    directiveOf fips = FIPSDirective.ForceEnable ↔ fips = lit "1" := by
  unfold directiveOf
  by_cases h0 : fips = lit "0"
  · simp [h0, lit_zero_ne_one]
  · by_cases h1 : fips = lit "1"
    · subst h1
      simp [lit_zero_ne_one.symm]
    · simp [h0, h1]

theorem directiveOf_other (fips : GoString) (h0 : fips ≠ lit "0") (h1 : fips ≠ lit "1") :
    directiveOf fips = FIPSDirective.NoOverride := by
  simp [directiveOf, h0, h1]

theorem host_not_mem_of_checks (tr : List Call)
    (h : ∀ c ∈ tr, ∃ v, c = Call.CheckVersion v) : Call.hostFIPSModeEnabled ∉ tr := by
  intro hm
  obtain ⟨v, hv⟩ := h _ hm
  cases hv

/-- The host signal is read only on a run whose `GOLANG_FIPS` is unset. -/
theorem initWith_host_called_only_if_unset {σ : Type} (known : List GoString)
    (P : Provider σ) (env : Environ) (host : Bool) (s0 : σ)
    (hm : Call.hostFIPSModeEnabled ∈ (initWith known P env host s0).world.trace) :
    env (lit "GOLANG_FIPS") = none := by
  have hck := host_not_mem_of_checks _ (resolveVersion_trace_checks known P.CheckVersion env)
  rcases hI : P.Init (resolveVersion known P.CheckVersion env).1 s0 with ⟨e, s1⟩
  cases e with
  | some err =>
    rw [initWith_of_Init_err known P env host s0 s1 err hI] at hm
    simp [hck] at hm
  | none =>
    rw [initWith_of_Init_ok known P env host s0 s1 hI] at hm
    cases hv : env (lit "GOLANG_FIPS") with
    | none => rfl
    | some v =>
      exfalso
      rw [fipsVariable_of_set env host v hv] at hm
      rcases applyFIPS_trace_mem P _ s1 _ _ hm with h | h | ⟨b, h⟩ | h
      · simp [hck] at h
      · cases h
      · cases h
      · cases h

/-- A run whose `fips` value is neither `0` nor `1` makes no `SetFIPS` call and leaves
`enabled` unset, whether or not `Init` succeeds. -/
theorem initWith_other {σ : Type} (known : List GoString) (P : Provider σ) (env : Environ)
    (host : Bool) (s0 : σ) (h0 : (fipsVariable env host).1 ≠ lit "0")
    (h1 : (fipsVariable env host).1 ≠ lit "1") :
    setFIPSArgs (initWith known P env host s0).world.trace = []
    ∧ (initWith known P env host s0).world.enabled = false := by
  rcases hI : P.Init (resolveVersion known P.CheckVersion env).1 s0 with ⟨e, s1⟩
  cases e with
  | some err =>
    rw [initWith_of_Init_err known P env host s0 s1 err hI]
    refine ⟨?_, rfl⟩
    simp only [setFIPSArgs_append,
      setFIPSArgs_of_checks _ (resolveVersion_trace_checks known P.CheckVersion env)]
    simp [setFIPSArgs]
  | none =>
    rw [initWith_of_Init_ok known P env host s0 s1 hI, applyFIPS_other P _ s1 _ h0 h1]
    exact ⟨setFIPSArgs_before_switch known P env host, rfl⟩

/-- Go `hasSuffix(s, t)` holds exactly when `s` is strictly longer than `t` and ends
with `t`. -/
theorem hasSuffix_iff (s t : GoString) :
    hasSuffix s t = true ↔ t.length < s.length ∧ t <:+ s := by
  unfold hasSuffix
  simp only [Bool.and_eq_true, decide_eq_true_eq, beq_iff_eq, gt_iff_lt]
  constructor
  · rintro ⟨hl, hd⟩
    refine ⟨hl, ?_⟩
    rw [← hd]
    exact List.drop_suffix _ _
  · rintro ⟨hl, hs⟩
    exact ⟨hl, (List.suffix_iff_eq_drop.mp hs).symm⟩

/-- On a run that does not panic, `enabled` is set exactly when the value of `fips`
is `1`. -/
theorem init_world_enabled_iff {σ : Type} (P : Provider σ) (env : Environ) (host : Bool)
    (s0 : σ) (hdone : (init P env host s0).panic = none) :
    (init P env host s0).world.enabled = true ↔ (fipsVariable env host).1 = lit "1" := by
  unfold init at hdone ⊢
  rcases hI : P.Init (resolveVersion knownVersions P.CheckVersion env).1 s0 with ⟨e, s1⟩
  cases e with
  | some err =>
    rw [initWith_of_Init_err knownVersions P env host s0 s1 err hI] at hdone
    simp at hdone
  | none =>
    rw [initWith_of_Init_ok knownVersions P env host s0 s1 hI] at hdone ⊢
    exact applyFIPS_enabled_iff P _ s1 _ hdone

/-! ## Version resolution (C1, C7, C8) -/

/-- C1: with `GO_OPENSSL_VERSION_OVERRIDE` unset or empty, for every probe the one version
passed to `openssl.Init` is the first entry of `knownVersions` (declared order `3`,
`1.1`, `11`, `111`, `1.0.2`, `1.0.0`, `10`) that both exists and is FIPS-capable, whatever
later entries report; and when no entry is both, it is the first entry that exists. -/
theorem init_selects_first_fips_else_first_existing {σ : Type} (P : Provider σ)
    (env : Environ) (host : Bool) (s0 : σ)
    (hov : env (lit "GO_OPENSSL_VERSION_OVERRIDE") = none
      ∨ env (lit "GO_OPENSSL_VERSION_OVERRIDE") = some []) :
    knownVersions
        = [lit "3", lit "1.1", lit "11", lit "111", lit "1.0.2", lit "1.0.0", lit "10"]
    ∧ (∀ (i : Nat) (v : GoString), knownVersions[i]? = some v →
        (P.CheckVersion v).1 = true ∧ (P.CheckVersion v).2 = true →
        (∀ w ∈ knownVersions.take i,
          ¬((P.CheckVersion w).1 = true ∧ (P.CheckVersion w).2 = true)) →
        initArgs (init P env host s0).world.trace = [v])
    ∧ ((∀ w ∈ knownVersions, ¬((P.CheckVersion w).1 = true ∧ (P.CheckVersion w).2 = true)) →
        ∀ (i : Nat) (v : GoString), knownVersions[i]? = some v →
          (P.CheckVersion v).1 = true →
          (∀ w ∈ knownVersions.take i, (P.CheckVersion w).1 = false) →
          initArgs (init P env host s0).world.trace = [v]) := by
  have hres := resolveVersion_of_empty_override knownVersions P.CheckVersion env hov
  refine ⟨rfl, ?_, ?_⟩
  · intro i v hi hv hw
    have hmem : v ∈ knownVersions := List.getElem?_mem hi
    have hne : v ≠ [] := knownVersions_nonempty v hmem
    have hfind := find?_of_first (fun v => (P.CheckVersion v).1 && (P.CheckVersion v).2)
      knownVersions i v hi (by simp [hv.1, hv.2])
      (fun w hm => by
        have := hw w hm
        by_contra hc
        simp at hc
        exact this ⟨hc.1, hc.2⟩)
    have hver := scanVersions_version P.CheckVersion knownVersions []
    rw [hfind] at hver
    simp only [Option.getD_some] at hver
    unfold init
    rw [initWith_initArgs, hres, hver]
    simp [hne]
  · intro hnone i v hi hv hw
    have hmem : v ∈ knownVersions := List.getElem?_mem hi
    have hne : v ≠ [] := knownVersions_nonempty v hmem
    have hfn : (knownVersions.find? fun v => (P.CheckVersion v).1 && (P.CheckVersion v).2)
        = none := by
      rw [List.find?_eq_none]
      intro w hm
      have := hnone w hm
      simpa using this
    have hfind := find?_of_first (fun v => (P.CheckVersion v).1) knownVersions i v hi hv hw
    have hver := scanVersions_version P.CheckVersion knownVersions []
    rw [hfn] at hver
    simp only [Option.getD_none] at hver
    have hfb := scanVersions_fallback P.CheckVersion knownVersions []
      knownVersions_nonempty hfn
    rw [hfind] at hfb
    simp only [if_true, Option.getD_some] at hfb
    unfold init
    rw [initWith_initArgs, hres, hver, hfb]
    simp [hne]

/-- Witness for C1 on two sample hosts: on the first, `3` exists without FIPS and `1.1`
and `111` are both FIPS-capable, and `1.1` is passed to `openssl.Init`; on the second no
version is FIPS-capable, `11` and `1.0.2` exist, and `11` is passed. -/
theorem init_selects_first_fips_else_first_existing_witness :
    initArgs (init (flagProvider sampleProbe true true) (mkEnv none none) false false).world.trace
        = [lit "1.1"]
    ∧ initArgs
        (init (flagProvider fallbackProbe true true) (mkEnv (some []) none) false false).world.trace
        = [lit "11"] :=
  ⟨(init_selects_first_fips_else_first_existing (flagProvider sampleProbe true true)
      (mkEnv none none) false false (Or.inl (by decide))).2.1 1 (lit "1.1")
      (by decide) (by decide) (by decide),
   (init_selects_first_fips_else_first_existing (flagProvider fallbackProbe true true)
      (mkEnv (some []) none) false false (Or.inr (by decide))).2.2 (by decide) 2 (lit "11")
      (by decide) (by decide) (by decide)⟩

/-- C7 as stated fails: on a host where no known version exists, a provider whose
`Init` accepts the empty version lets `init` complete without a panic. -/
theorem init_no_version_may_complete :
    ¬ (∀ (P : Provider Bool) (env : Environ) (host : Bool) (s0 : Bool),
        (env (lit "GO_OPENSSL_VERSION_OVERRIDE") = none
          ∨ env (lit "GO_OPENSSL_VERSION_OVERRIDE") = some []) →
        (∀ v ∈ knownVersions, (P.CheckVersion v).1 = false) →
        (init P env host s0).panic ≠ none) := by
  intro h
  exact h (flagProvider emptyProbe true true) (mkEnv none none) false false
    (Or.inl (by decide)) (by decide) (by decide)

/-- C7, amended: with `GO_OPENSSL_VERSION_OVERRIDE` unset or empty and no entry of
`knownVersions` existing, every entry is probed once in order, no version is selected and
`openssl.Init` is called with the empty string; `init` panics with the initialisation
message when that call returns an error, and when the call succeeds `init` goes on to the
FIPS directive exactly as after any other successful `Init`. -/
theorem init_no_version_calls_Init_empty {σ : Type} (P : Provider σ) (env : Environ)
    (host : Bool) (s0 : σ)
    (hov : env (lit "GO_OPENSSL_VERSION_OVERRIDE") = none
      ∨ env (lit "GO_OPENSSL_VERSION_OVERRIDE") = some [])
    (hnone : ∀ v ∈ knownVersions, (P.CheckVersion v).1 = false) :
    initArgs (init P env host s0).world.trace = [[]]
    ∧ checkVersionArgs (init P env host s0).world.trace = knownVersions
    ∧ (∀ (err : GoString) (s1 : σ), P.Init [] s0 = (some err, s1) →
        (init P env host s0).panic
          = some (lit "opensslcrypto: can't initialize OpenSSL " ++ [] ++ lit ": " ++ err))
    ∧ (∀ (s1 : σ), P.Init [] s0 = (none, s1) →
        init P env host s0
          = applyFIPS P (fipsVariable env host).1 s1
              (knownVersions.map Call.CheckVersion ++ [Call.Init []]
                ++ (fipsVariable env host).2)) := by
  have hboth : ∀ v ∈ knownVersions, ((P.CheckVersion v).1 && (P.CheckVersion v).2) = false :=
    fun v hv => by simp [hnone v hv]
  have hfn : (knownVersions.find? fun v => (P.CheckVersion v).1 && (P.CheckVersion v).2)
      = none := by
    rw [List.find?_eq_none]
    intro w hm
    simp [hboth w hm]
  have hfe : (knownVersions.find? fun v => (P.CheckVersion v).1) = none := by
    rw [List.find?_eq_none]
    intro w hm
    simp [hnone w hm]
  have hver := scanVersions_version P.CheckVersion knownVersions []
  rw [hfn] at hver
  simp only [Option.getD_none] at hver
  have hfb := scanVersions_fallback P.CheckVersion knownVersions [] knownVersions_nonempty hfn
  rw [hfe] at hfb
  simp only [if_true, Option.getD_none] at hfb
  have hres := resolveVersion_of_empty_override knownVersions P.CheckVersion env hov
  rw [hver, hfb] at hres
  simp only [ne_eq, not_true_eq_false, and_false, if_false] at hres
  have hg : (Getenv env (lit "GO_OPENSSL_VERSION_OVERRIDE")).1 = [] := by
    rcases hov with h | h
    · rw [Getenv_none env _ h]
    · rw [Getenv_some env _ _ h]
  have htr : (resolveVersion knownVersions P.CheckVersion env).2
      = knownVersions.map Call.CheckVersion := by
    unfold resolveVersion
    simp only [hg]
    simpa using scanVersions_trace_of_none P.CheckVersion knownVersions [] [] hboth
  have hcv : checkVersionArgs (knownVersions.map Call.CheckVersion) = knownVersions := by
    decide
  refine ⟨?_, ?_, ?_, ?_⟩
  · unfold init
    rw [initWith_initArgs, hres]
  · unfold init
    rw [initWith_checkVersionArgs, htr, hcv]
  · intro err s1 hI
    unfold init initWith
    simp only [hres, hI]
  · intro s1 hI
    unfold init initWith
    simp only [hres, hI, htr]

/-- Witness for the amended C7: on a host without any known version, a provider whose
`Init` fails makes `init` panic with the initialisation message for the empty version. -/
theorem init_no_version_calls_Init_empty_witness :
    (init (flagProvider emptyProbe false true) (mkEnv none none) false false).panic
      = some (lit "opensslcrypto: can't initialize OpenSSL " ++ [] ++ lit ": "
          ++ lit "no such library") :=
  (init_no_version_calls_Init_empty (flagProvider emptyProbe false true) (mkEnv none none)
    false false (Or.inl (by decide)) (by decide)).2.2.1 (lit "no such library") false
    (by decide)

/-- C8: for every non-empty value `s` of `GO_OPENSSL_VERSION_OVERRIDE`, whatever the list
of known versions, the probe and the provider, `init` passes exactly `s` to
`openssl.Init` and makes no `CheckVersion` call. -/
theorem init_override_used_verbatim {σ : Type} (known : List GoString) (P : Provider σ)
    (env : Environ) (host : Bool) (s0 : σ) (s : GoString) (hs : s ≠ [])
    (hov : env (lit "GO_OPENSSL_VERSION_OVERRIDE") = some s) :
    initArgs (initWith known P env host s0).world.trace = [s]
    ∧ checkVersionArgs (initWith known P env host s0).world.trace = []
    ∧ (∀ v, Call.CheckVersion v ∉ (initWith known P env host s0).world.trace) := by
  have hres := resolveVersion_of_override known P.CheckVersion env s hs hov
  have h1 : initArgs (initWith known P env host s0).world.trace = [s] := by
    rw [initWith_initArgs, hres]
  have h2 : checkVersionArgs (initWith known P env host s0).world.trace = [] := by
    rw [initWith_checkVersionArgs, hres]
    rfl
  refine ⟨h1, h2, ?_⟩
  intro v hv
  have : v ∈ checkVersionArgs (initWith known P env host s0).world.trace := by
    unfold checkVersionArgs
    rw [List.mem_filterMap]
    exact ⟨Call.CheckVersion v, hv, rfl⟩
  rw [h2] at this
  simp at this

/-- Witness for C8: the override `9.9`, which is not a known version and which the probe
reports as absent, is passed to `openssl.Init` without any probe. -/
theorem init_override_used_verbatim_witness :
    initArgs (initWith knownVersions (flagProvider sampleProbe true true)
        (mkEnv (some (lit "9.9")) none) false false).world.trace = [lit "9.9"]
    ∧ checkVersionArgs (initWith knownVersions (flagProvider sampleProbe true true)
        (mkEnv (some (lit "9.9")) none) false false).world.trace = [] :=
  ⟨(init_override_used_verbatim knownVersions (flagProvider sampleProbe true true)
      (mkEnv (some (lit "9.9")) none) false false (lit "9.9") (by decide) (by decide)).1,
   (init_override_used_verbatim knownVersions (flagProvider sampleProbe true true)
      (mkEnv (some (lit "9.9")) none) false false (lit "9.9") (by decide) (by decide)).2.1⟩

/-! ## FIPS directive (C2, C3, C4, C9, C10) -/

/-- C2: after `openssl.Init` has succeeded, leaving provider state `s1`: directive `0`
with `FIPS()` true calls `SetFIPS(false)` exactly once (and never `SetFIPS(true)`), and
`init` panics iff that call returns an error; directive `0` with `FIPS()` false makes no
`SetFIPS` call; directive `1` with `FIPS()` false calls `SetFIPS(true)` exactly once, and
`init` panics iff that call returns an error; directive `1` with `FIPS()` true makes no
`SetFIPS` call; any other directive makes no `SetFIPS` call and never panics. -/
theorem init_fips_truth_table {σ : Type} (P : Provider σ) (env : Environ) (host : Bool)
    (s0 s1 : σ)
    (hInit : P.Init (resolveVersion knownVersions P.CheckVersion env).1 s0 = (none, s1)) :
    ((fipsVariable env host).1 = lit "0" → P.FIPS s1 = true →
        setFIPSArgs (init P env host s0).world.trace = [false]
        ∧ ((init P env host s0).panic ≠ none ↔ (P.SetFIPS false s1).1 ≠ none))
    ∧ ((fipsVariable env host).1 = lit "0" → P.FIPS s1 = false →
        setFIPSArgs (init P env host s0).world.trace = []
        ∧ (init P env host s0).panic = none)
    ∧ ((fipsVariable env host).1 = lit "1" → P.FIPS s1 = false →
        setFIPSArgs (init P env host s0).world.trace = [true]
        ∧ ((init P env host s0).panic ≠ none ↔ (P.SetFIPS true s1).1 ≠ none))
    ∧ ((fipsVariable env host).1 = lit "1" → P.FIPS s1 = true →
        setFIPSArgs (init P env host s0).world.trace = []
        ∧ (init P env host s0).panic = none)
    ∧ ((fipsVariable env host).1 ≠ lit "0" → (fipsVariable env host).1 ≠ lit "1" →
        setFIPSArgs (init P env host s0).world.trace = []
        ∧ (init P env host s0).panic = none) := by
  have hrun := initWith_of_Init_ok knownVersions P env host s0 s1 hInit
  have hpre := setFIPSArgs_before_switch knownVersions P env host
  unfold init
  rw [hrun]
  refine ⟨?_, ?_, ?_, ?_, ?_⟩
  · intro hd hf
    rw [hd]
    have h := applyFIPS_zero_on P s1 ((resolveVersion knownVersions P.CheckVersion env).2
      ++ [Call.Init (resolveVersion knownVersions P.CheckVersion env).1]
      ++ (fipsVariable env host).2) hf
    rw [hpre] at h
    exact ⟨by simpa using h.1, h.2.1⟩
  · intro hd hf
    rw [hd, applyFIPS_zero_off P s1 _ hf]
    refine ⟨?_, rfl⟩
    simp only [setFIPSArgs_append, hpre]
    simp [setFIPSArgs]
  · intro hd hf
    rw [hd]
    have h := applyFIPS_one_off P s1 ((resolveVersion knownVersions P.CheckVersion env).2
      ++ [Call.Init (resolveVersion knownVersions P.CheckVersion env).1]
      ++ (fipsVariable env host).2) hf
    rw [hpre] at h
    exact ⟨by simpa using h.1, h.2.1⟩
  · intro hd hf
    rw [hd, applyFIPS_one_on P s1 _ hf]
    refine ⟨?_, rfl⟩
    simp only [setFIPSArgs_append, hpre]
    simp [setFIPSArgs]
  · intro h0 h1
    rw [applyFIPS_other P _ s1 _ h0 h1]
    exact ⟨hpre, rfl⟩

/-- Witness for C2: `GOLANG_FIPS=0`, the provider is in FIPS mode after `Init`, and
`SetFIPS(false)` fails with `busy`: `SetFIPS(false)` is the only `SetFIPS` call, and
`init` panics. -/
theorem init_fips_truth_table_witness :
    setFIPSArgs (init (flagProvider sampleProbe true false)
        (mkEnv none (some (lit "0"))) false true).world.trace = [false]
    ∧ (init (flagProvider sampleProbe true false)
        (mkEnv none (some (lit "0"))) false true).panic ≠ none :=
  ⟨((init_fips_truth_table (flagProvider sampleProbe true false)
      (mkEnv none (some (lit "0"))) false true true (by decide)).1 (by decide) (by decide)).1,
   ((init_fips_truth_table (flagProvider sampleProbe true false)
      (mkEnv none (some (lit "0"))) false true true (by decide)).1 (by decide) (by decide)).2.mpr
      (by decide)⟩

/-- C3: on every run of `init` that completes without panicking, `Enabled()` is true
exactly when the derived directive is `1`, that is for `GOLANG_FIPS=1` or for an unset
`GOLANG_FIPS` on a host that mandates FIPS; with directive `0` or no override `Enabled()`
is false, whatever the provider reports as its FIPS mode. -/
theorem init_enabled_iff_force_enable {σ : Type} (P : Provider σ) (env : Environ)
    (host : Bool) (s0 : σ) (arg0 : GoString)
    (hdone : (init P env host s0).panic = none) :
    (Enabled (processOf (init P env host s0) arg0) = true
        ↔ (fipsVariable env host).1 = lit "1")
    ∧ (Enabled (processOf (init P env host s0) arg0) = true
        ↔ directiveOf (fipsVariable env host).1 = FIPSDirective.ForceEnable)
    ∧ (Enabled (processOf (init P env host s0) arg0) = true
        ↔ env (lit "GOLANG_FIPS") = some (lit "1")
          ∨ (env (lit "GOLANG_FIPS") = none ∧ host = true))
    ∧ ((fipsVariable env host).1 ≠ lit "1" →
        Enabled (processOf (init P env host s0) arg0) = false) := by
  have key : (init P env host s0).world.enabled = true
      ↔ (fipsVariable env host).1 = lit "1" := init_world_enabled_iff P env host s0 hdone
  have hE : Enabled (processOf (init P env host s0) arg0)
      = (init P env host s0).world.enabled := rfl
  rw [hE]
  refine ⟨key, ?_, ?_, ?_⟩
  · rw [key, directiveOf_eq_enable_iff]
  · rw [key, fipsVariable_eq_one_iff]
  · intro hne
    cases hen : (init P env host s0).world.enabled with
    | false => rfl
    | true => exact absurd (key.mp hen) hne

/-- Witness for C3 (scenario A): `GOLANG_FIPS=1`, the host does not mandate FIPS, the
provider starts with FIPS mode off and `SetFIPS(true)` succeeds: `Enabled()` is true. -/
theorem init_enabled_iff_force_enable_witness :
    Enabled (processOf (init (flagProvider sampleProbe true true)
      (mkEnv none (some (lit "1"))) false false) (lit "prog")) = true :=
  (init_enabled_iff_force_enable (flagProvider sampleProbe true true)
    (mkEnv none (some (lit "1"))) false false (lit "prog") (by decide)).1.mpr (by decide)

/-- C4: when `GOLANG_FIPS` is set, the value of `fips` is that value, the host signal is
not read and the directive is the same for both host signals: `0` is ForceDisable, `1` is
ForceEnable, anything else is NoOverride.  The host signal is read only when
`GOLANG_FIPS` is unset; there a host that mandates FIPS gives ForceEnable, with the same
outcome of `init` as `GOLANG_FIPS=1`, and a host that does not gives NoOverride. -/
theorem fips_directive_precedence {σ : Type} (P : Provider σ) (env : Environ) (host : Bool)
    (s0 : σ) :
    (∀ v, env (lit "GOLANG_FIPS") = some v →
        fipsVariable env host = (v, [])
        ∧ directiveOf (fipsVariable env true).1 = directiveOf v
        ∧ directiveOf (fipsVariable env false).1 = directiveOf v)
    ∧ directiveOf (lit "0") = FIPSDirective.ForceDisable
    ∧ directiveOf (lit "1") = FIPSDirective.ForceEnable
    ∧ (∀ v, v ≠ lit "0" → v ≠ lit "1" → directiveOf v = FIPSDirective.NoOverride)
    ∧ (env (lit "GOLANG_FIPS") = none →
        (fipsVariable env host).2 = [Call.hostFIPSModeEnabled]
        ∧ directiveOf (fipsVariable env host).1
            = if host then FIPSDirective.ForceEnable else FIPSDirective.NoOverride)
    ∧ (Call.hostFIPSModeEnabled ∈ (init P env host s0).world.trace →
        env (lit "GOLANG_FIPS") = none)
    ∧ (∀ (env1 : Environ) (host1 : Bool), env (lit "GOLANG_FIPS") = none → host = true →
        env1 (lit "GOLANG_FIPS") = some (lit "1") →
        env1 (lit "GO_OPENSSL_VERSION_OVERRIDE") = env (lit "GO_OPENSSL_VERSION_OVERRIDE") →
        (init P env host s0).panic = (init P env1 host1 s0).panic
        ∧ (init P env host s0).world.enabled = (init P env1 host1 s0).world.enabled
        ∧ (init P env host s0).world.prov = (init P env1 host1 s0).world.prov) := by
  refine ⟨?_, by decide, by decide, directiveOf_other, ?_, ?_, ?_⟩
  · intro v hv
    rw [fipsVariable_of_set env host v hv, fipsVariable_of_set env true v hv,
      fipsVariable_of_set env false v hv]
    exact ⟨rfl, rfl, rfl⟩
  · intro hn
    rw [fipsVariable_of_unset env host hn]
    refine ⟨rfl, ?_⟩
    cases host
    · exact directiveOf_other _ nil_ne_lit_zero nil_ne_lit_one
    · decide
  · exact initWith_host_called_only_if_unset knownVersions P env host s0
  · intro env1 host1 hn hh h1 hov
    subst hh
    have hrv := resolveVersion_congr knownVersions P.CheckVersion env1 env hov
    have hf : (fipsVariable env true).1 = lit "1" := by
      rw [fipsVariable_of_unset env true hn]
      rfl
    have hf1 : (fipsVariable env1 host1).1 = lit "1" := by
      rw [fipsVariable_of_set env1 host1 _ h1]
    unfold init
    rcases hI : P.Init (resolveVersion knownVersions P.CheckVersion env).1 s0 with ⟨e, s1⟩
    have hI1 : P.Init (resolveVersion knownVersions P.CheckVersion env1).1 s0 = (e, s1) := by
      rw [hrv]
      exact hI
    cases e with
    | some err =>
      rw [initWith_of_Init_err knownVersions P env true s0 s1 err hI,
        initWith_of_Init_err knownVersions P env1 host1 s0 s1 err hI1, hrv]
      exact ⟨rfl, rfl, rfl⟩
    | none =>
      rw [initWith_of_Init_ok knownVersions P env true s0 s1 hI,
        initWith_of_Init_ok knownVersions P env1 host1 s0 s1 hI1, hf, hf1]
      exact applyFIPS_indep P (lit "1") s1 _ _

/-- Witness for C4 (scenario B): with `GOLANG_FIPS` unset on a host that mandates FIPS the
directive is ForceEnable, and with `GOLANG_FIPS=0` on the same host it is ForceDisable. -/
theorem fips_directive_precedence_witness :
    directiveOf (fipsVariable (mkEnv none none) true).1 = FIPSDirective.ForceEnable
    ∧ directiveOf (fipsVariable (mkEnv none (some (lit "0"))) true).1
        = FIPSDirective.ForceDisable :=
  ⟨((fips_directive_precedence (flagProvider sampleProbe true true) (mkEnv none none) true
      false).2.2.2.2.1 (by decide)).2,
   ((fips_directive_precedence (flagProvider sampleProbe true true)
      (mkEnv none (some (lit "0"))) true false).1 (lit "0") (by decide)).2.1.trans
      (by decide)⟩

/-- C9 as stated fails: with `GOLANG_FIPS=2` on a host that mandates FIPS the directive is
NoOverride, not the ForceEnable that the host signal gives. -/
theorem golang_fips_other_value_does_not_defer_to_host :
    ¬ (∀ (env : Environ) (host : Bool) (v : GoString),
        env (lit "GOLANG_FIPS") = some v → v ≠ lit "0" → v ≠ lit "1" →
        directiveOf (fipsVariable env host).1
          = if host then FIPSDirective.ForceEnable else FIPSDirective.NoOverride) := by
  intro h
  have := h (mkEnv none (some (lit "2"))) true (lit "2") (by decide) (by decide) (by decide)
  revert this
  decide

/-- C9, amended: `GOLANG_FIPS=0` forces disable and `GOLANG_FIPS=1` forces enable; when the
variable is absent the directive is the one the host signal gives, ForceEnable on a host
that mandates FIPS and NoOverride otherwise; for every other value to which the variable
is set, the empty string included, the directive is NoOverride whatever the host signal:
the host signal is not read, `init` makes no `SetFIPS` call and `Enabled()` is false. -/
theorem golang_fips_defers_to_host_only_when_unset {σ : Type} (P : Provider σ)
    (env : Environ) (host : Bool) (s0 : σ) (arg0 : GoString) :
    (env (lit "GOLANG_FIPS") = some (lit "0") →
        directiveOf (fipsVariable env host).1 = FIPSDirective.ForceDisable)
    ∧ (env (lit "GOLANG_FIPS") = some (lit "1") →
        directiveOf (fipsVariable env host).1 = FIPSDirective.ForceEnable)
    ∧ (env (lit "GOLANG_FIPS") = none →
        directiveOf (fipsVariable env host).1
          = if host then FIPSDirective.ForceEnable else FIPSDirective.NoOverride)
    ∧ (∀ v, env (lit "GOLANG_FIPS") = some v → v ≠ lit "0" → v ≠ lit "1" →
        directiveOf (fipsVariable env host).1 = FIPSDirective.NoOverride
        ∧ Call.hostFIPSModeEnabled ∉ (init P env host s0).world.trace
        ∧ setFIPSArgs (init P env host s0).world.trace = []
        ∧ Enabled (processOf (init P env host s0) arg0) = false) := by
  refine ⟨?_, ?_, ?_, ?_⟩
  · intro h
    rw [fipsVariable_of_set env host _ h]
    decide
  · intro h
    rw [fipsVariable_of_set env host _ h]
    decide
  · intro hn
    rw [fipsVariable_of_unset env host hn]
    cases host
    · exact directiveOf_other _ nil_ne_lit_zero nil_ne_lit_one
    · decide
  · intro v hv h0 h1
    have hfv : (fipsVariable env host).1 = v := by
      rw [fipsVariable_of_set env host v hv]
    have hoth := initWith_other knownVersions P env host s0 (by rw [hfv]; exact h0)
      (by rw [hfv]; exact h1)
    refine ⟨?_, ?_, hoth.1, hoth.2⟩
    · rw [hfv]
      exact directiveOf_other v h0 h1
    · intro hm
      have := initWith_host_called_only_if_unset knownVersions P env host s0 hm
      rw [hv] at this
      cases this

/-- Witness for the amended C9: with `GOLANG_FIPS` set to the empty string on a host that
mandates FIPS, the directive is NoOverride and `Enabled()` is false after `init`. -/
theorem golang_fips_defers_to_host_only_when_unset_witness :
    directiveOf (fipsVariable (mkEnv none (some [])) true).1 = FIPSDirective.NoOverride
    ∧ Enabled (processOf (init (flagProvider sampleProbe true true)
        (mkEnv none (some [])) true true) (lit "prog")) = false :=
  ⟨((golang_fips_defers_to_host_only_when_unset (flagProvider sampleProbe true true)
      (mkEnv none (some [])) true true (lit "prog")).2.2.2 [] (by decide) (by decide)
      (by decide)).1,
   ((golang_fips_defers_to_host_only_when_unset (flagProvider sampleProbe true true)
      (mkEnv none (some [])) true true (lit "prog")).2.2.2 [] (by decide) (by decide)
      (by decide)).2.2.2⟩

/-- C10: with a provider for which a successful `SetFIPS(b)` makes `FIPS()` return `b`, for
every environment, host signal, probe and initial provider state: if `init` completes
without panicking and `Enabled()` is true, the provider is in FIPS mode at the end of
`init`; and whenever the directive is `1`, whichever version was resolved (a fallback
that is not FIPS-capable included), `init` either panics or ends with `Enabled()` true and
FIPS mode on. -/
theorem init_enabled_implies_fips_on {σ : Type} (P : Provider σ) (env : Environ)
    (host : Bool) (s0 : σ) (arg0 : GoString)
    (hset : ∀ (b : Bool) (s s' : σ), P.SetFIPS b s = (none, s') → P.FIPS s' = b) :
    ((init P env host s0).panic = none →
        Enabled (processOf (init P env host s0) arg0) = true →
        P.FIPS (init P env host s0).world.prov = true)
    ∧ ((fipsVariable env host).1 = lit "1" →
        (init P env host s0).panic ≠ none
        ∨ (Enabled (processOf (init P env host s0) arg0) = true
          ∧ P.FIPS (init P env host s0).world.prov = true)) := by
  have hE : Enabled (processOf (init P env host s0) arg0)
      = (init P env host s0).world.enabled := rfl
  rw [hE]
  have second : (fipsVariable env host).1 = lit "1" →
      (init P env host s0).panic ≠ none
      ∨ ((init P env host s0).world.enabled = true
        ∧ P.FIPS (init P env host s0).world.prov = true) := by
    intro hd
    unfold init
    rcases hI : P.Init (resolveVersion knownVersions P.CheckVersion env).1 s0 with ⟨e, s1⟩
    cases e with
    | some err =>
      left
      rw [initWith_of_Init_err knownVersions P env host s0 s1 err hI]
      simp
    | none =>
      rw [initWith_of_Init_ok knownVersions P env host s0 s1 hI, hd]
      exact applyFIPS_one_sound P s1 _ hset
  refine ⟨?_, second⟩
  intro hdone hen
  have hd : (fipsVariable env host).1 = lit "1" :=
    (init_world_enabled_iff P env host s0 hdone).mp hen
  rcases second hd with h | h
  · exact absurd hdone h
  · exact h.2

/-- Witness for C10 on a host without any FIPS-capable version: `GOLANG_FIPS=1`, the
resolver falls back to `11`, which the probe reports as not FIPS-capable, `SetFIPS(true)`
succeeds, and `init` ends with the provider in FIPS mode. -/
theorem init_enabled_implies_fips_on_witness :
    (flagProvider fallbackProbe true true).FIPS
      (init (flagProvider fallbackProbe true true)
        (mkEnv none (some (lit "1"))) false false).world.prov = true :=
  (init_enabled_implies_fips_on (flagProvider fallbackProbe true true)
    (mkEnv none (some (lit "1"))) false false (lit "prog")
    (by intro b s s' h; cases h; rfl)).1 (by decide) (by decide)

/-! ## Execution guards (C5, C6) -/

/-- C5: `Unreachable()` panics, with the message `opensslcrypto: invalid code execution`,
if and only if `Enabled()` is true, for every executable name; when `Enabled()` is false
it returns normally. -/
theorem Unreachable_panics_iff_enabled (p : Process) :
    ((Unreachable p).panic = some (lit "opensslcrypto: invalid code execution")
        ↔ Enabled p = true)
    ∧ ((Unreachable p).panic = none ↔ Enabled p = false) := by
  unfold Unreachable
  cases h : Enabled p <;> simp

/-- C6 as stated fails: the executable name `_test` ends with `_test`, yet with
`Enabled()` true `UnreachableExceptTests()` panics. -/
theorem UnreachableExceptTests_bare_suffix_panics :
    ¬ (∀ p : Process, (lit "_test" <:+ p.arg0 ∨ lit ".test" <:+ p.arg0) →
        (UnreachableExceptTests p).panic = none) := by
  intro h
  have := h ⟨true, lit "_test"⟩ (Or.inl (List.suffix_refl _))
  revert this
  decide

/-- C6, amended: `UnreachableExceptTests()` panics if and only if `Enabled()` is true and
`hasSuffix` finds no reserved suffix, where `hasSuffix` requires the name to be strictly
longer than the suffix: for every name of more than five bytes that ends with `_test` or
`.test` it returns normally even when `Enabled()` is true, and for every other name, the
bare names `_test` and `.test` included, it panics exactly when `Enabled()` is true. -/
theorem UnreachableExceptTests_panics_iff (p : Process) :
    ((UnreachableExceptTests p).panic = some (lit "opensslcrypto: invalid code execution")
        ↔ Enabled p = true
          ∧ ¬(5 < p.arg0.length ∧ (lit "_test" <:+ p.arg0 ∨ lit ".test" <:+ p.arg0)))
    ∧ ((UnreachableExceptTests p).panic = none
        ↔ Enabled p = false
          ∨ (5 < p.arg0.length ∧ (lit "_test" <:+ p.arg0 ∨ lit ".test" <:+ p.arg0))) := by
  have h1 := hasSuffix_iff p.arg0 (lit "_test")
  have h2 := hasSuffix_iff p.arg0 (lit ".test")
  have l1 : (lit "_test").length = 5 := by decide
  have l2 : (lit ".test").length = 5 := by decide
  rw [l1] at h1
  rw [l2] at h2
  unfold UnreachableExceptTests
  cases he : Enabled p <;> cases ha : hasSuffix p.arg0 (lit "_test") <;>
    cases hb : hasSuffix p.arg0 (lit ".test") <;> simp [he, ha, hb] at h1 h2 ⊢ <;> tauto

end Backend
